import Mathlib

/-!
Verification of the credential store, response-salvage, retry/backoff,
throttling, and form-validation logic of `app.py` (login_org).

The Python source is shallowly embedded: 32-bit machine arithmetic is `Nat`
with explicit `% 2^32`; the SQLite `users` table is a list of rows; raised
exceptions become `Except`; `json.loads` is a fuelled recursive-descent
parser matching the strict mode of Python's `json` module on the inputs in
scope.
-/

/-! ## SHA-256 (`hashlib.sha256(...).hexdigest()` used by `hash_password`) -/

/-- `2^32`, the modulus of all 32-bit arithmetic in SHA-256. -/
def M32 : Nat := 4294967296

/-- Right rotation of a 32-bit word. -/
def rotr32 (n x : Nat) : Nat := ((x >>> n) ||| (x <<< (32 - n))) % M32

/-- The SHA-256 round constants. -/
def K256 : List Nat :=
  [1116352408, 1899447441, 3049323471, 3921009573, 961987163,
   1508970993, 2453635748, 2870763221, 3624381080, 310598401,
   607225278, 1426881987, 1925078388, 2162078206, 2614888103,
   3248222580, 3835390401, 4022224774, 264347078, 604807628,
   770255983, 1249150122, 1555081692, 1996064986, 2554220882,
   2821834349, 2952996808, 3210313671, 3336571891, 3584528711,
   113926993, 338241895, 666307205, 773529912, 1294757372,
   1396182291, 1695183700, 1986661051, 2177026350, 2456956037,
   2730485921, 2820302411, 3259730800, 3345764771, 3516065817,
   3600352804, 4094571909, 275423344, 430227734, 506948616,
   659060556, 883997877, 958139571, 1322822218, 1537002063,
   1747873779, 1955562222, 2024104815, 2227730452, 2361852424,
   2428436474, 2756734187, 3204031479, 3329325298]

/-- The eight-word SHA-256 working state / digest. -/
@[ext]
structure Hash8 where
  h0 : Nat
  h1 : Nat
  h2 : Nat
  h3 : Nat
  h4 : Nat
  h5 : Nat
  h6 : Nat
  h7 : Nat
deriving DecidableEq

/-- The SHA-256 initial hash value. -/
def sha256Init : Hash8 :=
  ⟨1779033703, 3144134277, 1013904242, 2773480762,
   1359893119, 2600822924, 528734635, 1541459225⟩

/-- Extend a 16-word block to the 64-word message schedule (48 extension steps). -/
def extendSchedule : Nat → List Nat → List Nat
  | 0, ws => ws
  | n + 1, ws =>
    let t := ws.length
    let w15 := ws.getD (t - 15) 0
    let w2 := ws.getD (t - 2) 0
    let w16 := ws.getD (t - 16) 0
    let w7 := ws.getD (t - 7) 0
    let s0 := (rotr32 7 w15) ^^^ (rotr32 18 w15) ^^^ (w15 >>> 3)
    let s1 := (rotr32 17 w2) ^^^ (rotr32 19 w2) ^^^ (w2 >>> 10)
    extendSchedule n (ws ++ [(w16 + s0 + w7 + s1) % M32])

/-- One SHA-256 compression round; `kw` is the pair of round constant and schedule word. -/
def roundStep (st : Hash8) (kw : Nat × Nat) : Hash8 :=
  let s1 := (rotr32 6 st.h4) ^^^ (rotr32 11 st.h4) ^^^ (rotr32 25 st.h4)
  let ch := (st.h4 &&& st.h5) ^^^ ((st.h4 ^^^ (M32 - 1)) &&& st.h6)
  let temp1 := (st.h7 + s1 + ch + kw.1 + kw.2) % M32
  let s0 := (rotr32 2 st.h0) ^^^ (rotr32 13 st.h0) ^^^ (rotr32 22 st.h0)
  let maj := (st.h0 &&& st.h1) ^^^ (st.h0 &&& st.h2) ^^^ (st.h1 &&& st.h2)
  let temp2 := (s0 + maj) % M32
  ⟨(temp1 + temp2) % M32, st.h0, st.h1, st.h2, (st.h3 + temp1) % M32, st.h4, st.h5, st.h6⟩

/-- Word-wise addition mod `2^32` of two states (the final feed-forward of a block). -/
def addWords (a b : Hash8) : Hash8 :=
  ⟨(a.h0 + b.h0) % M32, (a.h1 + b.h1) % M32, (a.h2 + b.h2) % M32, (a.h3 + b.h3) % M32,
   (a.h4 + b.h4) % M32, (a.h5 + b.h5) % M32, (a.h6 + b.h6) % M32, (a.h7 + b.h7) % M32⟩

/-- Compress one 16-word block into the running hash value. -/
def compressBlock (st : Hash8) (block : List Nat) : Hash8 :=
  addWords st ((K256.zip (extendSchedule 48 block)).foldl roundStep st)

/-- SHA-256 padding: append `0x80`, zeros to 56 mod 64, then the 64-bit big-endian bit length. -/
def padMessage (msg : List Nat) : List Nat :=
  let L := msg.length
  let k := (119 - L % 64) % 64
  let bitLen := 8 * L
  msg ++ [0x80] ++ List.replicate k 0 ++ (List.range 8).map (fun i => (bitLen >>> (8 * (7 - i))) &&& 255)

/-- Big-endian conversion of a byte list to 32-bit words. -/
def bytesToWords : List Nat → List Nat
  | a :: b :: c :: d :: rest => (((a * 256 + b) * 256 + c) * 256 + d) :: bytesToWords rest
  | _ => []

/-- Split a word list into 16-word blocks (`n` is recursion fuel, any value `≥` block count). -/
def toBlocksFuel : Nat → List Nat → List (List Nat)
  | 0, _ => []
  | _ + 1, [] => []
  | n + 1, ws => ws.take 16 :: toBlocksFuel n (ws.drop 16)

/-- SHA-256 of a byte list, as the eight-word digest. -/
def sha256Words (msg : List Nat) : Hash8 :=
  let padded := padMessage msg
  (toBlocksFuel padded.length (bytesToWords padded)).foldl compressBlock sha256Init

/-- Lower-case hex digit, as produced by Python's `hexdigest`. -/
def hexChar (n : Nat) : Char := if n < 10 then Char.ofNat (48 + n) else Char.ofNat (87 + n)

/-- A 32-bit word as eight lower-case hex characters, big-endian. -/
def hexWord (w : Nat) : List Char := (List.range 8).map (fun i => hexChar ((w >>> (4 * (7 - i))) &&& 15))

/-- The 64-character lower-case hex digest of a `Hash8`. -/
def hexDigest (st : Hash8) : String :=
  String.mk (hexWord st.h0 ++ hexWord st.h1 ++ hexWord st.h2 ++ hexWord st.h3 ++
             hexWord st.h4 ++ hexWord st.h5 ++ hexWord st.h6 ++ hexWord st.h7)

/-- UTF-8 encoding of one character (Python `str.encode("utf-8")`, scalar values only). -/
def utf8Bytes (c : Char) : List Nat :=
  let n := c.toNat
  if n < 0x80 then [n]
  else if n < 0x800 then [0xC0 ||| (n >>> 6), 0x80 ||| (n &&& 0x3F)]
  else if n < 0x10000 then
    [0xE0 ||| (n >>> 12), 0x80 ||| ((n >>> 6) &&& 0x3F), 0x80 ||| (n &&& 0x3F)]
  else
    [0xF0 ||| (n >>> 18), 0x80 ||| ((n >>> 12) &&& 0x3F), 0x80 ||| ((n >>> 6) &&& 0x3F),
     0x80 ||| (n &&& 0x3F)]

/-- UTF-8 encoding of a string as a byte list. -/
def utf8Encode (s : String) : List Nat := s.data.foldr (fun c acc => utf8Bytes c ++ acc) []

/-- `hash_password` (app.py:104-105): `hashlib.sha256(p.encode("utf-8")).hexdigest()`. -/
def hash_password (p : String) : String := hexDigest (sha256Words (utf8Encode p))

/-! ## Credential store (`init_db`, `user_exists`, `create_user`, `check_credentials`)

The SQLite table `users(id INTEGER PRIMARY KEY AUTOINCREMENT, username TEXT UNIQUE NOT NULL,
password_hash TEXT NOT NULL, created_at TEXT NOT NULL)` created by `init_db` (app.py:90-102)
is embedded as a list of rows plus the autoincrement counter. A raised `sqlite3` exception
that is not an `IntegrityError` (I/O failure, corruption — produced by the environment, not
by the code) is modelled by the `dbFault` parameter: `some msg` means the `execute` call
raises a non-integrity `sqlite3.Error` with message `msg`, `none` means it behaves normally.
An uncaught exception appears as `Except.error`. -/

/-- One row of the `users` table. -/
structure UserRow where
  id : Nat
  username : String
  password_hash : String
  created_at : String
deriving DecidableEq

/-- The `users` table: its rows and the next autoincrement id. -/
structure DB where
  rows : List UserRow
  nextId : Nat
deriving DecidableEq

/-- The empty `users` table, as `init_db` creates it in a fresh database file. -/
def emptyDB : DB := ⟨[], 0⟩

/-- `user_exists` (app.py:107-110): `SELECT 1 FROM users WHERE username = ?`, true iff a row
matches. -/
def user_exists (db : DB) (username : String) : Bool :=
  db.rows.any (fun r => r.username == username)

/-- `create_user` (app.py:112-122): inserts the row with a fresh digest and the current UTC
timestamp `now`; the `UNIQUE` constraint on `username` makes the insert raise
`sqlite3.IntegrityError` when the username is already present, which the `except` catches,
returning `False`; any other `sqlite3` error (`dbFault = some msg`) is not caught and
propagates. -/
def create_user (dbFault : Option String) (now : String) (db : DB) (username password : String) :
    Except String (Bool × DB) :=
  match dbFault with
  | some msg => .error msg
  | none =>
    if db.rows.any (fun r => r.username == username) then
      .ok (false, db)
    else
      .ok (true, ⟨db.rows ++ [⟨db.nextId, username, hash_password password, now⟩], db.nextId + 1⟩)

/-- `check_credentials` (app.py:124-128): fetch the row's `password_hash` by username and
compare with the digest of the supplied password; `bool(row and ...)` is false on a lookup
miss. There is no `try` block, so a storage error propagates. -/
def check_credentials (dbFault : Option String) (db : DB) (username password : String) :
    Except String Bool :=
  match dbFault with
  | some msg => .error msg
  | none =>
    match db.rows.find? (fun r => r.username == username) with
    | some row => .ok (row.password_hash == hash_password password)
    | none => .ok false

/-- All digest words are reduced mod `2^32`. -/
def Hash8.bounded (st : Hash8) : Prop :=
  st.h0 < M32 ∧ st.h1 < M32 ∧ st.h2 < M32 ∧ st.h3 < M32 ∧
  st.h4 < M32 ∧ st.h5 < M32 ∧ st.h6 < M32 ∧ st.h7 < M32

/-- The words of a `Hash8` indexed by `Fin 8`. -/
def wordsOf (st : Hash8) : Fin 8 → Nat
  | ⟨0, _⟩ => st.h0
  | ⟨1, _⟩ => st.h1
  | ⟨2, _⟩ => st.h2
  | ⟨3, _⟩ => st.h3
  | ⟨4, _⟩ => st.h4
  | ⟨5, _⟩ => st.h5
  | ⟨6, _⟩ => st.h6
  | ⟨7, _⟩ => st.h7

/-- The digest of a string packed into a finite type, for the pigeonhole argument. -/
def digestFin (s : String) : Fin 8 → Fin M32 :=
  fun i => ⟨wordsOf (sha256Words (utf8Encode s)) i % M32, Nat.mod_lt _ (by decide)⟩

/-! ## Response salvage (`extract_json`)

The extraction appears inline in `tab_seo` (app.py:335-348) and `tab_email` (app.py:436-441),
identically: `start = full.find("\x7b")`, `end = full.rfind("\x7d")`, slice `full[start:end+1]`
when both are found with `end > start`, otherwise the whole text; then `json.loads`; on any
parse failure the raw text `full` is shown (`st.code(full ...)`) and no object is produced.
`json.loads` is embedded as a fuelled recursive-descent parser of Python's strict JSON mode:
double-quoted strings with the standard escapes, numbers (`int` when there is no fraction or
exponent, otherwise a decimal float kept exactly as mantissa times a power of ten),
`true`/`false`/`null`, `NaN`/`Infinity`/`-Infinity`, arrays and objects, with only space, tab,
newline and carriage return as whitespace, and a trailing "Extra data" check. -/

/-- The character `\x7b` (opening brace). -/
def lbrace : Char := Char.ofNat 123

/-- The character `\x7d` (closing brace). -/
def rbrace : Char := Char.ofNat 125

/-- A parsed JSON value. Floats are kept exactly as `mant * 10 ^ ex` (Python would round
them to binary floating point; no claim in scope depends on that rounding). -/
inductive Json where
  | nullV : Json
  | boolV : Bool → Json
  | intV : Int → Json
  | floatV : (mant : Int) → (ex : Int) → Json
  | nanV : Json
  | infV : (neg : Bool) → Json
  | strV : String → Json
  | arrV : List Json → Json
  | objV : List (String × Json) → Json

/-- JSON whitespace (Python `json`: space, tab, newline, carriage return). -/
def jsonWs (c : Char) : Bool := c == ' ' || c == '\t' || c == '\n' || c == '\r'

/-- Skip JSON whitespace. -/
def skipWs (cs : List Char) : List Char := cs.dropWhile jsonWs

/-- ASCII decimal digit test. -/
def isDigit (c : Char) : Bool := decide (48 ≤ c.toNat ∧ c.toNat ≤ 57)

/-- Value of a hex digit, if any. -/
def hexNib (c : Char) : Option Nat :=
  if 48 ≤ c.toNat ∧ c.toNat ≤ 57 then some (c.toNat - 48)
  else if 97 ≤ c.toNat ∧ c.toNat ≤ 102 then some (c.toNat - 87)
  else if 65 ≤ c.toNat ∧ c.toNat ≤ 70 then some (c.toNat - 55)
  else none

/-- The single-character JSON string escapes. -/
def escChar (e : Char) : Option Char :=
  if e = '"' then some '"'
  else if e = '\\' then some '\\'
  else if e = '/' then some '/'
  else if e = 'b' then some (Char.ofNat 8)
  else if e = 'f' then some (Char.ofNat 12)
  else if e = 'n' then some '\n'
  else if e = 'r' then some '\r'
  else if e = 't' then some '\t'
  else none

/-- A low-surrogate `\uXXXX` escape at the head of the input, if present: its value and the
remaining input. -/
def lowSurrogate? : List Char → Option (Nat × List Char)
  | b1 :: b2 :: u5 :: u6 :: u7 :: u8 :: cs4 =>
    if b1 = '\\' ∧ b2 = 'u' then
      match hexNib u5, hexNib u6, hexNib u7, hexNib u8 with
      | some a, some b, some c, some d =>
        let v2 := ((a * 16 + b) * 16 + c) * 16 + d
        if 0xDC00 ≤ v2 ∧ v2 ≤ 0xDFFF then some (v2, cs4) else none
      | _, _, _, _ => none
    else none
  | _ => none

/-- Decode a `\uXXXX` escape of value `v`: a high surrogate followed by a low-surrogate
escape combines into one scalar; a lone surrogate (which Python would keep as a lone
surrogate code unit) has no `Char` counterpart and goes through `Char.ofNat`'s fallback. -/
def uEscape (v : Nat) (cs3 : List Char) : Char × List Char :=
  if 0xD800 ≤ v ∧ v ≤ 0xDBFF then
    (match lowSurrogate? cs3 with
     | some p => (Char.ofNat (0x10000 + (v - 0xD800) * 1024 + (p.1 - 0xDC00)), p.2)
     | none => (Char.ofNat v, cs3))
  else (Char.ofNat v, cs3)

/-- Body of a JSON string literal after the opening quote. Control characters are rejected
(strict mode). `n` is recursion fuel. -/
def parseStringAux : Nat → List Char → List Char → Except String (String × List Char)
  | 0, _, _ => .error "out of fuel"
  | _ + 1, _, [] => .error "Unterminated string"
  | n + 1, acc, c :: cs =>
    if c = '"' then .ok (String.mk acc.reverse, cs)
    else if c = '\\' then
      match cs with
      | [] => .error "Unterminated string"
      | e :: cs2 =>
        if e = 'u' then
          match cs2 with
          | u1 :: u2 :: u3 :: u4 :: cs3 =>
            match hexNib u1, hexNib u2, hexNib u3, hexNib u4 with
            | some a, some b, some c1, some d =>
              let p := uEscape (((a * 16 + b) * 16 + c1) * 16 + d) cs3
              parseStringAux n (p.1 :: acc) p.2
            | _, _, _, _ => .error "Invalid uXXXX escape"
          | _ => .error "Invalid uXXXX escape"
        else
          match escChar e with
          | some ch => parseStringAux n (ch :: acc) cs2
          | none => .error "Invalid escape"
    else if c.toNat < 32 then .error "Invalid control character"
    else parseStringAux n (c :: acc) cs

/-- Numeric value of a digit list. -/
def natOfDigits (ds : List Char) : Nat := ds.foldl (fun a c => a * 10 + (c.toNat - 48)) 0

/-- A JSON number, following Python's `NUMBER_RE`:
`(-?(?:0|[1-9]\d*))(\.\d+)?([eE][-+]?\d+)?`; `int` when fraction and exponent are absent. -/
def parseNumber (cs : List Char) : Except String (Json × List Char) :=
  let sn := match cs with
    | c :: rest => if c = '-' then (true, rest) else (false, cs)
    | [] => (false, cs)
  let neg := sn.1
  match sn.2 with
  | [] => .error "Expecting value"
  | d :: rest1 =>
    if isDigit d then
      let ip := if d = '0' then ([d], rest1)
                else (d :: rest1.takeWhile isDigit, rest1.dropWhile isDigit)
      let intDigits := ip.1
      let fp := match ip.2 with
        | dot :: f :: fr =>
          if dot = '.' ∧ isDigit f then (f :: fr.takeWhile isDigit, fr.dropWhile isDigit)
          else ([], ip.2)
        | _ => ([], ip.2)
      let fracDigits := fp.1
      let ep : Bool × List Char × List Char := match fp.2 with
        | e :: t =>
          if e = 'e' ∨ e = 'E' then
            match t with
            | s :: t2 =>
              if s = '+' ∨ s = '-' then
                match t2 with
                | d2 :: t3 =>
                  if isDigit d2 then (s == '-', d2 :: t3.takeWhile isDigit, t3.dropWhile isDigit)
                  else (false, [], fp.2)
                | [] => (false, [], fp.2)
              else if isDigit s then (false, s :: t2.takeWhile isDigit, t2.dropWhile isDigit)
              else (false, [], fp.2)
            | [] => (false, [], fp.2)
          else (false, [], fp.2)
        | [] => (false, [], fp.2)
      let expDigits := ep.2.1
      if fracDigits = [] ∧ expDigits = [] then
        let nv : Int := Int.ofNat (natOfDigits intDigits)
        .ok (.intV (if neg then -nv else nv), ip.2)
      else
        let mant : Int := Int.ofNat (natOfDigits (intDigits ++ fracDigits))
        let mant2 := if neg then -mant else mant
        let e1 : Int := Int.ofNat (natOfDigits expDigits)
        let e2 : Int := (if ep.1 then -e1 else e1) - Int.ofNat fracDigits.length
        .ok (.floatV mant2 e2, ep.2.2)
    else .error "Expecting value"

/-- The literal `null`. -/
def litNull : List Char := ['n', 'u', 'l', 'l']

/-- The literal `true`. -/
def litTrue : List Char := ['t', 'r', 'u', 'e']

/-- The literal `false`. -/
def litFalse : List Char := ['f', 'a', 'l', 's', 'e']

/-- The literal `NaN`. -/
def litNaN : List Char := ['N', 'a', 'N']

/-- The literal `Infinity`. -/
def litInf : List Char := ['I', 'n', 'f', 'i', 'n', 'i', 't', 'y']

/-- The literal `-Infinity`. -/
def litNegInf : List Char := ['-', 'I', 'n', 'f', 'i', 'n', 'i', 't', 'y']

mutual

/-- Parse one JSON value at the head of `cs` (whitespace already skipped). -/
def parseValue : Nat → List Char → Except String (Json × List Char)
  | 0, _ => .error "out of fuel"
  | n + 1, cs =>
    match cs with
    | [] => .error "Expecting value"
    | c :: rest =>
      if c = '"' then
        match parseStringAux n [] rest with
        | .ok (s, r) => .ok (.strV s, r)
        | .error e => .error e
      else if c = lbrace then
        match skipWs rest with
        | [] => .error "Expecting property name"
        | d :: cs2 => if d = rbrace then .ok (.objV [], cs2) else parseMembers n (d :: cs2) []
      else if c = '[' then
        match skipWs rest with
        | [] => .error "Expecting value"
        | d :: cs2 => if d = ']' then .ok (.arrV [], cs2) else parseItems n (d :: cs2) []
      else if List.isPrefixOf litNull cs then .ok (.nullV, cs.drop 4)
      else if List.isPrefixOf litTrue cs then .ok (.boolV true, cs.drop 4)
      else if List.isPrefixOf litFalse cs then .ok (.boolV false, cs.drop 5)
      else if List.isPrefixOf litNaN cs then .ok (.nanV, cs.drop 3)
      else if List.isPrefixOf litInf cs then .ok (.infV false, cs.drop 8)
      else if List.isPrefixOf litNegInf cs then .ok (.infV true, cs.drop 9)
      else if c = '-' ∨ isDigit c then parseNumber cs
      else .error "Expecting value"

/-- Parse the remaining items of a non-empty array, `cs` at the start of a value. -/
def parseItems : Nat → List Char → List Json → Except String (Json × List Char)
  | 0, _, _ => .error "out of fuel"
  | n + 1, cs, acc =>
    match parseValue n (skipWs cs) with
    | .error e => .error e
    | .ok (v, rest) =>
      match skipWs rest with
      | [] => .error "Expecting delimiter"
      | d :: rest2 =>
        if d = ',' then parseItems n rest2 (acc ++ [v])
        else if d = ']' then .ok (.arrV (acc ++ [v]), rest2)
        else .error "Expecting delimiter"

/-- Parse the remaining members of a non-empty object, `cs` at the start of a key. -/
def parseMembers : Nat → List Char → List (String × Json) →
    Except String (Json × List Char)
  | 0, _, _ => .error "out of fuel"
  | n + 1, cs, acc =>
    match cs with
    | [] => .error "Expecting property name"
    | c :: rest =>
      if c = '"' then
        match parseStringAux n [] rest with
        | .error e => .error e
        | .ok (key, rest2) =>
          match skipWs rest2 with
          | [] => .error "Expecting colon"
          | d :: rest3 =>
            if d = ':' then
              match parseValue n (skipWs rest3) with
              | .error e => .error e
              | .ok (v, rest4) =>
                match skipWs rest4 with
                | [] => .error "Expecting delimiter"
                | d2 :: rest5 =>
                  if d2 = ',' then
                    match skipWs rest5 with
                    | [] => .error "Expecting property name"
                    | d3 :: rest6 => parseMembers n (d3 :: rest6) (acc ++ [(key, v)])
                  else if d2 = rbrace then .ok (.objV (acc ++ [(key, v)]), rest5)
                  else .error "Expecting delimiter"
            else .error "Expecting colon"
      else .error "Expecting property name"

end

/-- `json.loads`: parse one JSON document, requiring only whitespace after it. -/
def json_loads (s : String) : Except String Json :=
  match parseValue (2 * s.data.length + 64) (skipWs s.data) with
  | .error e => .error e
  | .ok (v, rest) => if skipWs rest = [] then .ok v else .error "Extra data"

/-- Index of the first occurrence of `c`, if any (`str.find` before the `-1` encoding). -/
def pyFindAux : List Char → Char → Option Nat
  | [], _ => none
  | x :: xs, c => if x = c then some 0 else (pyFindAux xs c).map (· + 1)

/-- Index of the last occurrence of `c`, if any (`str.rfind` before the `-1` encoding). -/
def pyRFindAux : List Char → Char → Option Nat
  | [], _ => none
  | x :: xs, c =>
    match pyRFindAux xs c with
    | some i => some (i + 1)
    | none => if x = c then some 0 else none

/-- Python `str.find` for a single character: first index, or `-1`. -/
def pyFind (s : String) (c : Char) : Int :=
  match pyFindAux s.data c with
  | some i => Int.ofNat i
  | none => -1

/-- Python `str.rfind` for a single character: last index, or `-1`. -/
def pyRFind (s : String) (c : Char) : Int :=
  match pyRFindAux s.data c with
  | some i => Int.ofNat i
  | none => -1

/-- The text handed to `json.loads` (app.py:335-340): the slice `full[start:end+1]` from the
first `\x7b` to the last `\x7d` when both exist with `end > start`, otherwise `full` itself. -/
def selected_text (full : String) : String :=
  let start := pyFind full lbrace
  let e := pyRFind full rbrace
  if start ≠ -1 ∧ e ≠ -1 ∧ e > start then
    String.mk ((full.data.drop start.toNat).take (e.toNat + 1 - start.toNat))
  else full

/-- Run `json.loads` on `t`; on failure the `except` path displays the original text
`orig` (app.py:345-348 and 468-471), i.e. the error result carries `orig`. -/
def jsonLoadsOr (orig t : String) : Except String Json :=
  match json_loads t with
  | .ok d => .ok d
  | .error _ => .error orig

/-- The response-salvage operation of `tab_seo` (app.py:332-348) and `tab_email`
(app.py:433-441): brace-span selection followed by `json.loads`, the raw text carried on
failure. -/
def extract_json (full : String) : Except String Json := jsonLoadsOr full (selected_text full)

/-- The backquote character. -/
def backquote : Char := Char.ofNat 96

/-- A fenced code-block delimiter: three backquotes. -/
def fenceDelim : List Char := [backquote, backquote, backquote]

/-- First index at which `pat` occurs as a sublist, if any; `i` is the index accumulator. -/
def findSubAux : List Char → List Char → Nat → Option Nat
  | [], pat, i => if pat = [] then some i else none
  | c :: rest, pat, i =>
    if List.isPrefixOf pat (c :: rest) then some i else findSubAux rest pat (i + 1)

/-- Modelled from the spec: the spec's step 1 of the salvage algorithm — "If the text
contains a fenced block delimiter, take the content of the first such block; otherwise use
the text unmodified" — followed by the same steps 2-4 as the source. No code under `src/`
performs this stripping; this definition exists only to compare the spec's claimed
algorithm with the source's `extract_json`. The content of the first fenced block is the
text between the first ```` ``` ```` and the next one (to the end if unclosed). -/
def extract_json_spec (full : String) : Except String Json :=
  let stripped :=
    match findSubAux full.data fenceDelim 0 with
    | none => full
    | some i =>
      let afterOpen := full.data.drop (i + 3)
      match findSubAux afterOpen fenceDelim 0 with
      | none => String.mk afterOpen
      | some j => String.mk (afterOpen.take j)
  let start := pyFind stripped lbrace
  let e := pyRFind stripped rbrace
  if start ≠ -1 ∧ e ≠ -1 ∧ e > start then
    match json_loads (String.mk ((stripped.data.drop start.toNat).take (e.toNat + 1 - start.toNat))) with
    | .ok d => .ok d
    | .error _ => .error full
  else .error full

/-! ## Rate limit and backoff (`send_with_retry`, `ensure_throttle`, app.py:61-84)

The outcome of each `chat.send_message` call is supplied as a function of the attempt
index: success with a stream value, `google.api_core.exceptions.ResourceExhausted` (HTTP
429), or any other exception. Waits are exact rationals (`initial_wait = 2.0` and the
doublings are all exactly representable in binary floating point, so `Float` rounding never
enters). The result records the `time.sleep` calls performed. -/

/-- Outcome of one `chat.send_message(prompt, stream=True)` call. -/
inductive CallOutcome (α : Type) where
  | success : α → CallOutcome α
  | resourceExhausted : CallOutcome α
  | otherError : String → CallOutcome α

/-- Result of `send_with_retry`, with the list of waits slept. -/
inductive RetryResult (α : Type) where
  | ok : α → List ℚ → RetryResult α
  | quotaRaised : List ℚ → RetryResult α
  | errorRaised : String → List ℚ → RetryResult α
  | noTries : RetryResult α
deriving DecidableEq

/-- The `for i in range(max_tries)` loop of `send_with_retry` (app.py:66-75): `i` is the
current attempt index, `remaining` the attempts left (`max_tries - i`), `wait` the current
backoff. On `ResourceExhausted` at the last attempt the exception is re-raised; otherwise
the loop sleeps `wait`, doubles it and retries. Any other exception is re-raised at once.
Falling out of the loop (`max_tries = 0`) returns Python's `None`. -/
def retryLoop {α : Type} (attempt : Nat → CallOutcome α) :
    Nat → Nat → ℚ → RetryResult α
  | _, 0, _ => .noTries
  | i, r + 1, wait =>
    match attempt i with
    | .success a => .ok a []
    | .otherError m => .errorRaised m []
    | .resourceExhausted =>
      if r = 0 then .quotaRaised []
      else
        match retryLoop attempt (i + 1) r (wait * 2) with
        | .ok a s => .ok a (wait :: s)
        | .quotaRaised s => .quotaRaised (wait :: s)
        | .errorRaised m s => .errorRaised m (wait :: s)
        | .noTries => .noTries

/-- `send_with_retry` (app.py:63-75). In the source `max_tries` defaults to `3` and
`initial_wait` to `2.0`. -/
def send_with_retry {α : Type} (attempt : Nat → CallOutcome α) (max_tries : Nat)
    (initial_wait : ℚ) : RetryResult α :=
  retryLoop attempt 0 max_tries initial_wait

/-- `MIN_INTERVAL` (app.py:61): seconds between calls per user. -/
def MIN_INTERVAL : ℚ := 30

/-- Result of `ensure_throttle`: either the request is halted (`st.warning` plus `st.stop`)
with the whole-second wait shown to the user and the unchanged last-call timestamp, or it
is admitted with the timestamp updated. -/
inductive ThrottleResult where
  | halted : Int → ℚ → ThrottleResult
  | admitted : ℚ → ThrottleResult
deriving DecidableEq

/-- `ensure_throttle` (app.py:77-84): compare `now` against the session's `_last_call_ts`
(default `0`); if less than `MIN_INTERVAL` has elapsed, warn with
`int(MIN_INTERVAL - (now - last))` seconds and `st.stop()` the request; otherwise store
`now` and proceed. `int()` truncates, which on the positive values reached here is `⌊·⌋`. -/
def ensure_throttle (now last : ℚ) : ThrottleResult :=
  if now - last < MIN_INTERVAL then .halted ⌊MIN_INTERVAL - (now - last)⌋ last
  else .admitted now

/-- The times of the admitted calls when the session handles actions at the given times in
order, threading `_last_call_ts` through `ensure_throttle`. -/
def admittedTimes : List ℚ → ℚ → List ℚ
  | [], _ => []
  | t :: ts, last =>
    match ensure_throttle t last with
    | .halted _ l2 => admittedTimes ts l2
    | .admitted l2 => t :: admittedTimes ts l2

/-! ## Registration and login forms (app.py:176-211) -/

/-- Python `str.strip()` whitespace for the ASCII range (space, tab, newline, carriage
return, vertical tab, form feed; other Unicode whitespace does not occur in scope). -/
def isPySpace (c : Char) : Bool :=
  c == ' ' || c == '\t' || c == '\n' || c == '\r' || c == Char.ofNat 11 || c == Char.ofNat 12

/-- Python `str.strip()`: drop leading and trailing whitespace. -/
def pyStrip (s : String) : String :=
  String.mk (((s.data.dropWhile isPySpace).reverse.dropWhile isPySpace).reverse)

/-- What the registration form does on submit: which message is shown, and, in the last
branch, the exact `create_user` invocation made. -/
inductive RegOutcome where
  | warnFillFields : RegOutcome
  | warnPasswordShort : RegOutcome
  | warnPasswordMismatch : RegOutcome
  | infoUserExists : RegOutcome
  | createCalled : String → String → Except String (Bool × DB) → RegOutcome

/-- The submit handler of the register tab (app.py:197-211): strip the username, require
both fields non-empty, the password at least 6 characters and equal to its confirmation,
and the username fresh (`user_exists`), then call `create_user(nu, p1)`. -/
def tab_register (dbFault : Option String) (now : String) (db : DB) (nu0 p1 p2 : String) :
    RegOutcome :=
  let nu := pyStrip nu0
  if nu = "" ∨ p1 = "" then .warnFillFields
  else if p1.length < 6 then .warnPasswordShort
  else if p1 ≠ p2 then .warnPasswordMismatch
  else if user_exists db nu then .infoUserExists
  else .createCalled nu p1 (create_user dbFault now db nu p1)

/-- The submit handler of the login tab (app.py:182-188): `check_credentials(u.strip(), p)`. -/
def tab_login (dbFault : Option String) (db : DB) (u0 p : String) : Except String Bool :=
  check_credentials dbFault db (pyStrip u0) p

/-- A row as the forms create them: username stripped and non-empty, digest computed from
a password of length at least 6. -/
def wellFormedRow (r : UserRow) : Prop :=
  pyStrip r.username = r.username ∧ r.username ≠ "" ∧
  ∃ p : String, 6 ≤ p.length ∧ r.password_hash = hash_password p

/-! ## Lemmas: list helpers -/

/-- A predicate false on every element gives no `find?` hit. -/
theorem find?_none_of_any_false {α : Type} {p : α → Bool} :
    ∀ {l : List α}, l.any p = false → l.find? p = none := by
  intro l h
  induction l with
  | nil => rfl
  | cons x xs ih =>
    simp only [List.any_cons, Bool.or_eq_false_iff] at h
    rw [List.find?_cons_of_neg _ (by simp [h.1])]
    exact ih h.2

/-- `find?` over an append skips a hit-free left part. -/
theorem find?_append_left_none {α : Type} {p : α → Bool} :
    ∀ {l₁ : List α} (l₂ : List α), l₁.find? p = none → (l₁ ++ l₂).find? p = l₂.find? p := by
  intro l₁ l₂ h
  induction l₁ with
  | nil => rfl
  | cons x xs ih =>
    cases hx : p x with
    | false =>
      rw [List.find?_cons_of_neg _ (by simp [hx])] at h
      rw [List.cons_append, List.find?_cons_of_neg _ (by simp [hx])]
      exact ih h
    | true => rw [List.find?_cons_of_pos _ hx] at h; exact absurd h (by simp)

/-! ## Lemmas: digest bounds and existence of SHA-256 collisions -/

/-- Word-wise addition mod `2^32` returns bounded words. -/
theorem addWords_bounded (a b : Hash8) : (addWords a b).bounded := by
  unfold addWords Hash8.bounded
  refine ⟨?_, ?_, ?_, ?_, ?_, ?_, ?_, ?_⟩ <;> exact Nat.mod_lt _ (by decide)

/-- Compression always returns words reduced mod `2^32`. -/
theorem compressBlock_bounded (st : Hash8) (b : List Nat) : (compressBlock st b).bounded := by
  unfold compressBlock
  exact addWords_bounded _ _

/-- Folding compression preserves word bounds. -/
theorem foldl_compress_bounded :
    ∀ (bs : List (List Nat)) (st : Hash8), st.bounded → (bs.foldl compressBlock st).bounded := by
  intro bs
  induction bs with
  | nil => intro st h; exact h
  | cons b bs ih =>
    intro st _
    rw [List.foldl_cons]
    exact ih _ (compressBlock_bounded st b)

/-- Every SHA-256 digest word is below `2^32`. -/
theorem sha256Words_bounded (msg : List Nat) : (sha256Words msg).bounded := by
  unfold sha256Words
  exact foldl_compress_bounded _ _ (by unfold Hash8.bounded sha256Init; decide)

/-- SHA-256 maps infinitely many strings into finitely many digests, so `hash_password`
has collisions: the digest determines the hex digest, and equal packed digests force equal
digests word by word. -/
theorem hash_password_collision :
    ∃ x y : String, x ≠ y ∧ hash_password x = hash_password y := by
  obtain ⟨x, y, hxy, h⟩ := Finite.exists_ne_map_eq_of_infinite digestFin
  refine ⟨x, y, hxy, ?_⟩
  have hv : ∀ i : Fin 8,
      wordsOf (sha256Words (utf8Encode x)) i % M32 =
      wordsOf (sha256Words (utf8Encode y)) i % M32 :=
    fun i => congrArg Fin.val (congrFun h i)
  obtain ⟨bx0, bx1, bx2, bx3, bx4, bx5, bx6, bx7⟩ := sha256Words_bounded (utf8Encode x)
  obtain ⟨by0, by1, by2, by3, by4, by5, by6, by7⟩ := sha256Words_bounded (utf8Encode y)
  have h8 : sha256Words (utf8Encode x) = sha256Words (utf8Encode y) := by
    ext
    · have := hv ⟨0, by norm_num⟩
      simpa [wordsOf, Nat.mod_eq_of_lt bx0, Nat.mod_eq_of_lt by0] using this
    · have := hv ⟨1, by norm_num⟩
      simpa [wordsOf, Nat.mod_eq_of_lt bx1, Nat.mod_eq_of_lt by1] using this
    · have := hv ⟨2, by norm_num⟩
      simpa [wordsOf, Nat.mod_eq_of_lt bx2, Nat.mod_eq_of_lt by2] using this
    · have := hv ⟨3, by norm_num⟩
      simpa [wordsOf, Nat.mod_eq_of_lt bx3, Nat.mod_eq_of_lt by3] using this
    · have := hv ⟨4, by norm_num⟩
      simpa [wordsOf, Nat.mod_eq_of_lt bx4, Nat.mod_eq_of_lt by4] using this
    · have := hv ⟨5, by norm_num⟩
      simpa [wordsOf, Nat.mod_eq_of_lt bx5, Nat.mod_eq_of_lt by5] using this
    · have := hv ⟨6, by norm_num⟩
      simpa [wordsOf, Nat.mod_eq_of_lt bx6, Nat.mod_eq_of_lt by6] using this
    · have := hv ⟨7, by norm_num⟩
      simpa [wordsOf, Nat.mod_eq_of_lt bx7, Nat.mod_eq_of_lt by7] using this
  unfold hash_password
  rw [h8]

/-! ## Claims C1, C2, C3, C7: the credential store -/

/-- Claim C1: for every (username, password) pair with the username not yet present,
`create_user` succeeds and an immediate `check_credentials` with the same pair returns
true — the digest stored at creation equals the digest recomputed at verification. -/
theorem claim1_create_then_verify (db : DB) (u p now : String)
    (h : user_exists db u = false) :
    ∃ db2 : DB, create_user .none now db u p = .ok (true, db2) ∧
      check_credentials .none db2 u p = .ok true := by
  refine ⟨⟨db.rows ++ [⟨db.nextId, u, hash_password p, now⟩], db.nextId + 1⟩, ?_, ?_⟩
  · unfold user_exists at h
    unfold create_user
    rw [h]
    rfl
  · unfold user_exists at h
    unfold check_credentials
    rw [find?_append_left_none _ (find?_none_of_any_false h)]
    simp [List.find?]

/-- Witness for C1 at the concrete scenario of the spec: registering `alice` with
`secret1` in an empty store and logging in at once. -/
theorem claim1_create_then_verify_witness :
    user_exists emptyDB "alice" = false ∧
    (∃ db2 : DB, create_user .none "2024-01-01T00:00:00" emptyDB "alice" "secret1" = .ok (true, db2) ∧
      check_credentials .none db2 "alice" "secret1" = .ok true) :=
  ⟨rfl, claim1_create_then_verify emptyDB "alice" "secret1" "2024-01-01T00:00:00" rfl⟩

/-- Claim C2: for a username already present, `create_user` returns the failure result
(`False`, leaving the table unchanged) whatever password is supplied — the insert hits the
`UNIQUE` constraint and the raised `IntegrityError` is mapped to `False`; `create_user`
performs no separate prior `exists` check. -/
theorem claim2_duplicate_create_fails (db : DB) (u p now : String)
    (h : user_exists db u = true) :
    create_user .none now db u p = .ok (false, db) := by
  unfold user_exists at h
  unfold create_user
  rw [h]
  rfl

/-- Witness for C2: a second registration of `alice`, with a different password, fails. -/
theorem claim2_duplicate_create_fails_witness :
    user_exists ⟨[⟨0, "alice", hash_password "secret1", "t0"⟩], 1⟩ "alice" = true ∧
    create_user .none "t1" ⟨[⟨0, "alice", hash_password "secret1", "t0"⟩], 1⟩ "alice" "other12" =
      .ok (false, ⟨[⟨0, "alice", hash_password "secret1", "t0"⟩], 1⟩) :=
  ⟨by decide, claim2_duplicate_create_fails _ "alice" "other12" "t1" (by decide)⟩

/-- Claim C3 (amended): after creating a fresh user, verification returns false for every
password whose digest differs from the creation password's digest, and false for every
username never created; both failures produce the same boolean `false`, so unknown user
and wrong password are indistinguishable from the result. (The unamended claim, quantified
over raw passwords, fails on digest collisions: see the counterexample.) -/
theorem claim3_verify_false_cases :
    (∀ (db : DB) (u p p2 now : String) (db2 : DB),
      user_exists db u = false →
      create_user .none now db u p = .ok (true, db2) →
      hash_password p2 ≠ hash_password p →
      check_credentials .none db2 u p2 = .ok false) ∧
    (∀ (db : DB) (u p2 : String),
      user_exists db u = false →
      check_credentials .none db u p2 = .ok false) := by
  constructor
  · intro db u p p2 now db2 h hc hne
    unfold user_exists at h
    unfold create_user at hc
    rw [h] at hc
    simp only [Bool.false_eq_true, if_false, Except.ok.injEq, Prod.mk.injEq, true_and] at hc
    subst hc
    unfold check_credentials
    rw [find?_append_left_none _ (find?_none_of_any_false h)]
    simp only [List.find?, beq_self_eq_true]
    exact congrArg Except.ok (beq_eq_false_iff_ne.mpr (fun hh => hne hh.symm))
  · intro db u p2 h
    unfold user_exists at h
    unfold check_credentials
    rw [find?_none_of_any_false h]

/-- Witness for C3 (amended): `alice` created with `secret1`; verifying with `wrong`
(different digest, checked by evaluation) and verifying an absent user both yield false. -/
theorem claim3_verify_false_cases_witness :
    (user_exists emptyDB "alice" = false ∧
      create_user .none "t0" emptyDB "alice" "secret1" =
        .ok (true, ⟨[⟨0, "alice", hash_password "secret1", "t0"⟩], 1⟩) ∧
      hash_password "wrong" ≠ hash_password "secret1" ∧
      check_credentials .none ⟨[⟨0, "alice", hash_password "secret1", "t0"⟩], 1⟩ "alice" "wrong" =
        .ok false) ∧
    check_credentials .none emptyDB "bob" "whatever" = .ok false :=
  ⟨⟨rfl, rfl, by decide,
    claim3_verify_false_cases.1 emptyDB "alice" "secret1" "wrong" "t0" _ rfl rfl (by decide)⟩,
   claim3_verify_false_cases.2 emptyDB "bob" "whatever" rfl⟩

/-- Counterexample to C3 as stated: quantified over raw passwords rather than digests, the
claim is false. SHA-256 maps infinitely many passwords to finitely many digests, so two
distinct passwords share a digest, and verification accepts the wrong one. -/
theorem claim3_counterexample :
    ¬ (∀ (db : DB) (u p p2 now : String) (db2 : DB),
        user_exists db u = false →
        create_user .none now db u p = .ok (true, db2) →
        p2 ≠ p →
        check_credentials .none db2 u p2 = .ok false) := by
  intro H
  obtain ⟨x, y, hxy, hcol⟩ := hash_password_collision
  have hfalse := H emptyDB "u" x y "t" ⟨[⟨0, "u", hash_password x, "t"⟩], 1⟩ rfl rfl
    (fun hh => hxy hh.symm)
  have hcheck : check_credentials .none ⟨[⟨0, "u", hash_password x, "t"⟩], 1⟩ "u" y =
      .ok (hash_password x == hash_password y) := by
    unfold check_credentials
    simp [List.find?]
  rw [hcheck, hcol] at hfalse
  simp at hfalse

/-- Claim C7: a storage-layer error during `create_user` or `check_credentials` propagates
as an error result carrying the failure, distinct from every normal result — in particular
from the `False` that signals a duplicate username in `create_user` and from the `False`
of a lookup miss in `check_credentials`, both of which are `ok` results. -/
theorem claim7_storage_error_distinct (msg now : String) (db : DB) (u p : String) :
    create_user (some msg) now db u p = .error msg ∧
    check_credentials (some msg) db u p = .error msg ∧
    (∃ b : Bool, ∃ db2 : DB, create_user .none now db u p = .ok (b, db2)) ∧
    (∃ b : Bool, check_credentials .none db u p = .ok b) ∧
    (∀ (b : Bool) (db2 : DB), (Except.error msg : Except String (Bool × DB)) ≠ .ok (b, db2)) ∧
    (∀ b : Bool, (Except.error msg : Except String Bool) ≠ .ok b) := by
  refine ⟨rfl, rfl, ?_, ?_, fun b db2 h => Except.noConfusion h, fun b h => Except.noConfusion h⟩
  · cases hb : db.rows.any (fun r => r.username == u) with
    | false =>
      refine ⟨true, ⟨db.rows ++ [⟨db.nextId, u, hash_password p, now⟩], db.nextId + 1⟩, ?_⟩
      unfold create_user
      rw [hb]
      rfl
    | true =>
      refine ⟨false, db, ?_⟩
      unfold create_user
      rw [hb]
      rfl
  · cases hf : db.rows.find? (fun r => r.username == u) with
    | none =>
      refine ⟨false, ?_⟩
      unfold check_credentials
      rw [hf]
    | some r =>
      refine ⟨r.password_hash == hash_password p, ?_⟩
      unfold check_credentials
      rw [hf]

/-- Witness for C7 at a concrete store and failure message. -/
theorem claim7_storage_error_distinct_witness :
    create_user (some "database disk image is malformed") "t0" emptyDB "alice" "secret1" =
      .error "database disk image is malformed" ∧
    check_credentials (some "database disk image is malformed") emptyDB "alice" "secret1" =
      .error "database disk image is malformed" ∧
    (∃ b : Bool, ∃ db2 : DB,
      create_user .none "t0" emptyDB "alice" "secret1" = .ok (b, db2)) ∧
    (∃ b : Bool, check_credentials .none emptyDB "alice" "secret1" = .ok b) ∧
    (∀ (b : Bool) (db2 : DB),
      (Except.error "database disk image is malformed" : Except String (Bool × DB)) ≠
        .ok (b, db2)) ∧
    (∀ b : Bool,
      (Except.error "database disk image is malformed" : Except String Bool) ≠ .ok b) :=
  claim7_storage_error_distinct "database disk image is malformed" "t0" emptyDB "alice" "secret1"

/-! ## Claims C8, C9: backoff and throttling -/

/-- If every attempt raises the quota error, the loop sleeps the doubling waits and ends by
re-raising. -/
theorem retryLoop_all_quota {α : Type} (attempt : Nat → CallOutcome α) :
    ∀ (r i : Nat) (w : ℚ), (∀ k, k < r + 1 → attempt (i + k) = .resourceExhausted) →
      retryLoop attempt i (r + 1) w = .quotaRaised ((List.range r).map (fun k => w * 2 ^ k)) := by
  intro r
  induction r with
  | zero =>
    intro i w h
    unfold retryLoop
    rw [show attempt i = .resourceExhausted from by simpa using h 0 (by norm_num)]
    rfl
  | succ r ih =>
    intro i w h
    have h0 : attempt i = .resourceExhausted := by simpa using h 0 (by norm_num)
    have hrec := ih (i + 1) (w * 2) (fun k hk => by
      have := h (k + 1) (by omega)
      simpa [Nat.add_assoc, Nat.add_comm 1 k] using this)
    have hfun : (fun k => w * 2 * 2 ^ k) = ((fun k : Nat => w * 2 ^ k) ∘ Nat.succ) := by
      funext k
      simp [Function.comp, pow_succ]
      ring
    unfold retryLoop
    rw [h0, if_neg (Nat.succ_ne_zero r), hrec]
    dsimp only
    rw [List.range_succ_eq_map, List.map_cons, List.map_map, ← hfun]
    simp

/-- Claim C8: `send_with_retry` retries a quota (`ResourceExhausted`) failure with waits
doubling from `initial_wait`, up to `max_tries` attempts (default 3, waiting after each but
the last), then surfaces the quota error; a non-quota failure on the first attempt is
re-raised immediately with no retry and no sleep. -/
theorem claim8_send_with_retry :
    (∀ (α : Type) (attempt : Nat → CallOutcome α) (mt : Nat) (w : ℚ) (m : String),
      mt ≠ 0 → attempt 0 = .otherError m →
      send_with_retry attempt mt w = .errorRaised m []) ∧
    (∀ (α : Type) (attempt : Nat → CallOutcome α) (mt : Nat) (w : ℚ),
      mt ≠ 0 → (∀ k, k < mt → attempt k = .resourceExhausted) →
      send_with_retry attempt mt w =
        .quotaRaised ((List.range (mt - 1)).map (fun k => w * 2 ^ k))) ∧
    (∀ (α : Type) (attempt : Nat → CallOutcome α),
      (∀ k, k < 3 → attempt k = .resourceExhausted) →
      send_with_retry attempt 3 2 = .quotaRaised [2, 4]) := by
  have hquota : ∀ (α : Type) (attempt : Nat → CallOutcome α) (mt : Nat) (w : ℚ),
      mt ≠ 0 → (∀ k, k < mt → attempt k = .resourceExhausted) →
      send_with_retry attempt mt w =
        .quotaRaised ((List.range (mt - 1)).map (fun k => w * 2 ^ k)) := by
    intro α attempt mt w hmt h
    obtain ⟨r, rfl⟩ : ∃ r, mt = r + 1 := ⟨mt - 1, by omega⟩
    unfold send_with_retry
    rw [retryLoop_all_quota attempt r 0 w (fun k hk => by simpa using h k hk)]
    simp
  refine ⟨?_, hquota, ?_⟩
  · intro α attempt mt w m hmt h
    obtain ⟨r, rfl⟩ : ∃ r, mt = r + 1 := ⟨mt - 1, by omega⟩
    unfold send_with_retry retryLoop
    rw [h]
  · intro α attempt h
    rw [hquota α attempt 3 2 (by norm_num) h]
    norm_num [List.range_succ]

/-- Witness for C8: a stream of quota errors with the default `max_tries = 3` and
`initial_wait = 2.0` sleeps 2 s then 4 s and re-raises; an immediate non-quota error is
re-raised with no sleeps. -/
theorem claim8_send_with_retry_witness :
    ((3 : Nat) ≠ 0 ∧
      send_with_retry (fun _ => (CallOutcome.otherError "invalid api key" : CallOutcome Nat))
        3 2 = .errorRaised "invalid api key" []) ∧
    send_with_retry (fun _ => (CallOutcome.resourceExhausted : CallOutcome Nat)) 3 2 =
      .quotaRaised [2, 4] :=
  ⟨⟨by norm_num,
    claim8_send_with_retry.1 Nat (fun _ => .otherError "invalid api key") 3 2
      "invalid api key" (by norm_num) rfl⟩,
   claim8_send_with_retry.2.2 Nat (fun _ => .resourceExhausted) (fun k _ => rfl)⟩

/-- Trace equation: a call inside the minimum interval is dropped and leaves the timestamp
unchanged. -/
theorem admittedTimes_cons_halted (t : ℚ) (ts : List ℚ) (last : ℚ)
    (hc : t - last < MIN_INTERVAL) :
    admittedTimes (t :: ts) last = admittedTimes ts last := by
  simp only [admittedTimes, ensure_throttle, if_pos hc]

/-- Trace equation: a call at or past the minimum interval is admitted and resets the
timestamp to its own time. -/
theorem admittedTimes_cons_admitted (t : ℚ) (ts : List ℚ) (last : ℚ)
    (hc : ¬ t - last < MIN_INTERVAL) :
    admittedTimes (t :: ts) last = t :: admittedTimes ts t := by
  simp only [admittedTimes, ensure_throttle, if_neg hc]

/-- Every admitted time is at least `MIN_INTERVAL` past the timestamp the trace started
from. -/
theorem admittedTimes_lower_bound :
    ∀ (ts : List ℚ) (last u : ℚ), u ∈ admittedTimes ts last → last + MIN_INTERVAL ≤ u := by
  intro ts
  induction ts with
  | nil => intro last u hu; simp [admittedTimes] at hu
  | cons t ts ih =>
    intro last u hu
    have hMI : (0 : ℚ) ≤ MIN_INTERVAL := by norm_num [MIN_INTERVAL]
    by_cases hc : t - last < MIN_INTERVAL
    · rw [admittedTimes_cons_halted t ts last hc] at hu
      exact ih last u hu
    · rw [admittedTimes_cons_admitted t ts last hc] at hu
      rcases List.mem_cons.mp hu with hu | hu
      · subst hu; linarith [not_lt.mp hc]
      · have := ih t u hu
        have := not_lt.mp hc
        linarith

/-- Claim C9: `ensure_throttle` halts the request (reporting the violation with the
remaining whole seconds and leaving the per-session timestamp unchanged) when less than
`MIN_INTERVAL = 30` seconds have passed since the last call, admits it and updates the
timestamp otherwise; consequently, in any sequence of actions of one session, every two
admitted calls are at least `MIN_INTERVAL` apart. -/
theorem claim9_throttle :
    (∀ now last : ℚ, now - last < MIN_INTERVAL →
      ensure_throttle now last = .halted ⌊MIN_INTERVAL - (now - last)⌋ last) ∧
    (∀ now last : ℚ, ¬ now - last < MIN_INTERVAL →
      ensure_throttle now last = .admitted now) ∧
    (∀ (ts : List ℚ) (last : ℚ),
      (admittedTimes ts last).Pairwise (fun a b => a + MIN_INTERVAL ≤ b)) := by
  refine ⟨?_, ?_, ?_⟩
  · intro now last hc
    unfold ensure_throttle
    rw [if_pos hc]
  · intro now last hc
    unfold ensure_throttle
    rw [if_neg hc]
  · intro ts
    induction ts with
    | nil => intro last; simp [admittedTimes]
    | cons t ts ih =>
      intro last
      by_cases hc : t - last < MIN_INTERVAL
      · rw [admittedTimes_cons_halted t ts last hc]
        exact ih last
      · rw [admittedTimes_cons_admitted t ts last hc]
        exact List.Pairwise.cons (fun u hu => admittedTimes_lower_bound ts t u hu) (ih t)

/-- Witness for C9: at `now = 25` with `last = 0` the request is halted with the unchanged
timestamp; at `now = 40` it is admitted and the timestamp becomes 40. -/
theorem claim9_throttle_witness :
    ((25 : ℚ) - 0 < MIN_INTERVAL ∧
      ensure_throttle 25 0 = .halted ⌊MIN_INTERVAL - ((25 : ℚ) - 0)⌋ 0) ∧
    (¬ (40 : ℚ) - 0 < MIN_INTERVAL ∧
      ensure_throttle 40 0 = .admitted 40) :=
  ⟨⟨by norm_num [MIN_INTERVAL], claim9_throttle.1 25 0 (by norm_num [MIN_INTERVAL])⟩,
   ⟨by norm_num [MIN_INTERVAL], claim9_throttle.2.1 40 0 (by norm_num [MIN_INTERVAL])⟩⟩

/-! ## Lemmas: `str.find` / `str.rfind` characterizations -/

/-- `pyFindAux` finds exactly the first index holding `c`. -/
theorem pyFindAux_eq_some_of (c : Char) :
    ∀ (cs : List Char) (i : Nat), cs[i]? = some c → (∀ k, k < i → cs[k]? ≠ some c) →
      pyFindAux cs c = some i := by
  intro cs
  induction cs with
  | nil => intro i hi _; simp at hi
  | cons x xs ih =>
    intro i hi hbef
    cases i with
    | zero =>
      rw [List.getElem?_cons_zero, Option.some_inj] at hi
      unfold pyFindAux
      rw [if_pos hi]
    | succ i =>
      have hx : ¬ x = c := by
        intro he
        exact hbef 0 (Nat.succ_pos i) (by simp [he])
      rw [List.getElem?_cons_succ] at hi
      unfold pyFindAux
      rw [if_neg hx, ih i hi (fun k hk => by
        have := hbef (k + 1) (Nat.succ_lt_succ hk)
        simpa using this)]
      rfl

/-- A character absent from the list has no last occurrence. -/
theorem pyRFindAux_eq_none_of (c : Char) :
    ∀ cs : List Char, (∀ k : Nat, cs[k]? ≠ some c) → pyRFindAux cs c = none := by
  intro cs
  induction cs with
  | nil => intro _; rfl
  | cons x xs ih =>
    intro h
    have hx : ¬ x = c := by
      intro he
      exact h 0 (by simp [he])
    unfold pyRFindAux
    rw [ih (fun k => by simpa using h (k + 1)), if_neg hx]

/-- `pyRFindAux` finds exactly the last index holding `c`. -/
theorem pyRFindAux_eq_some_of (c : Char) :
    ∀ (cs : List Char) (j : Nat), cs[j]? = some c → (∀ k, j < k → cs[k]? ≠ some c) →
      pyRFindAux cs c = some j := by
  intro cs
  induction cs with
  | nil => intro j hj _; simp at hj
  | cons x xs ih =>
    intro j hj haft
    cases j with
    | zero =>
      rw [List.getElem?_cons_zero, Option.some_inj] at hj
      have hnone : pyRFindAux xs c = none :=
        pyRFindAux_eq_none_of c xs (fun k => by
          simpa using haft (k + 1) (Nat.succ_pos k))
      unfold pyRFindAux
      rw [hnone, if_pos hj]
    | succ j =>
      rw [List.getElem?_cons_succ] at hj
      have hsome := ih j hj (fun k hk => by
        simpa using haft (k + 1) (Nat.succ_lt_succ hk))
      unfold pyRFindAux
      rw [hsome]

/-- A last-occurrence index is inside the list. -/
theorem pyRFindAux_lt_length (c : Char) :
    ∀ (cs : List Char) (j : Nat), pyRFindAux cs c = some j → j < cs.length := by
  intro cs
  induction cs with
  | nil => intro j h; simp [pyRFindAux] at h
  | cons x xs ih =>
    intro j h
    unfold pyRFindAux at h
    cases hr : pyRFindAux xs c with
    | some i =>
      rw [hr, Option.some_inj] at h
      have := ih i hr
      simp [← h]
      omega
    | none =>
      rw [hr] at h
      by_cases hx : x = c
      · rw [if_pos hx, Option.some_inj] at h
        simp [← h]
      · rw [if_neg hx] at h
        exact absurd h (by simp)

/-! ## Claims C4, C5: brace-span extraction -/

/-- Claim C4: whenever the text has a first `\x7b` (index `i`, nothing before it) and a
last `\x7d` (index `j`, nothing after it) with `i < j`, `extract_json` parses exactly the
inclusive slice between them, the original text carried on failure; on the two inputs of
the spec it returns the stated objects. -/
theorem claim4_brace_span :
    (∀ (s : String) (i j : Nat), i < j →
      s.data[i]? = some lbrace → (∀ k, k < i → s.data[k]? ≠ some lbrace) →
      s.data[j]? = some rbrace →
      (∀ k, k < s.data.length → j < k → s.data[k]? ≠ some rbrace) →
      extract_json s = jsonLoadsOr s (String.mk ((s.data.drop i).take (j + 1 - i)))) ∧
    extract_json "prefix \x7b\"x\": [1,2,3]\x7d suffix" =
      .ok (.objV [("x", .arrV [.intV 1, .intV 2, .intV 3])]) ∧
    extract_json "```json\n\x7b\"a\":1\x7d\n```" = .ok (.objV [("a", .intV 1)]) := by
  refine ⟨?_, rfl, rfl⟩
  intro s i j hij hgi hbef hgj haft
  have haft2 : ∀ k, j < k → s.data[k]? ≠ some rbrace := by
    intro k hk
    by_cases hlen : k < s.data.length
    · exact haft k hlen hk
    · rw [List.getElem?_eq_none (Nat.le_of_not_lt hlen)]
      simp
  have hf : pyFind s lbrace = (i : Int) := by
    unfold pyFind
    rw [pyFindAux_eq_some_of lbrace s.data i hgi hbef]
    rfl
  have hr : pyRFind s rbrace = (j : Int) := by
    unfold pyRFind
    rw [pyRFindAux_eq_some_of rbrace s.data j hgj haft2]
    rfl
  have hcond : ((i : Int) ≠ -1 ∧ (j : Int) ≠ -1 ∧ (j : Int) > (i : Int)) :=
    ⟨by omega, by omega, by exact_mod_cast hij⟩
  unfold extract_json selected_text
  rw [hf, hr, if_pos hcond]
  simp

/-- Witness for C4: the spec's first example with the braces at indices 7 and 20. -/
theorem claim4_brace_span_witness :
    ((7 : Nat) < 20 ∧
      ("prefix \x7b\"x\": [1,2,3]\x7d suffix" : String).data[7]? = some lbrace ∧
      (∀ k, k < 7 →
        ("prefix \x7b\"x\": [1,2,3]\x7d suffix" : String).data[k]? ≠ some lbrace) ∧
      ("prefix \x7b\"x\": [1,2,3]\x7d suffix" : String).data[20]? = some rbrace ∧
      (∀ k, k < ("prefix \x7b\"x\": [1,2,3]\x7d suffix" : String).data.length → 20 < k →
        ("prefix \x7b\"x\": [1,2,3]\x7d suffix" : String).data[k]? ≠ some rbrace)) ∧
    extract_json "prefix \x7b\"x\": [1,2,3]\x7d suffix" =
      jsonLoadsOr "prefix \x7b\"x\": [1,2,3]\x7d suffix"
        (String.mk ((("prefix \x7b\"x\": [1,2,3]\x7d suffix" : String).data.drop 7).take
          (20 + 1 - 7))) :=
  ⟨⟨by decide, by decide, by decide, by decide, by decide⟩,
   claim4_brace_span.1 "prefix \x7b\"x\": [1,2,3]\x7d suffix" 7 20 (by decide) (by decide)
     (by decide) (by decide) (by decide)⟩

/-- Claim C5 (amended): whenever `json.loads` fails on the selected text, `extract_json`
reports the failure carrying the original raw text, and `"no braces here"` does yield that
failure; but when the brace delimiters are absent the whole raw text is handed to
`json.loads` rather than failing outright (see the counterexample, where a brace-free
input parses successfully). -/
theorem claim5_parse_error_raw_text :
    (∀ s : String, (∃ msg, json_loads (selected_text s) = .error msg) →
      extract_json s = .error s) ∧
    (∀ s : String, pyFind s lbrace = -1 → selected_text s = s) ∧
    extract_json "no braces here" = .error "no braces here" := by
  refine ⟨?_, ?_, rfl⟩
  · intro s ⟨msg, hm⟩
    unfold extract_json jsonLoadsOr
    rw [hm]
  · intro s h
    unfold selected_text
    rw [h, if_neg (fun hcond => hcond.1 rfl)]

/-- Witness for C5: the spec's failing input, with the parse failure exhibited. -/
theorem claim5_parse_error_raw_text_witness :
    (∃ msg, json_loads (selected_text "no braces here") = .error msg) ∧
    extract_json "no braces here" = .error "no braces here" ∧
    pyFind "no braces here" lbrace = -1 ∧
    selected_text "no braces here" = "no braces here" :=
  ⟨⟨"Expecting value", rfl⟩,
   claim5_parse_error_raw_text.1 "no braces here" ⟨"Expecting value", rfl⟩,
   rfl,
   claim5_parse_error_raw_text.2.1 "no braces here" rfl⟩

/-- Counterexample to C5 as stated: on `"[1,2,3]"` both delimiters are absent, yet
`extract_json` parses the whole text successfully instead of reporting a failure. -/
theorem claim5_counterexample :
    pyFind "[1,2,3]" lbrace = -1 ∧ pyRFind "[1,2,3]" rbrace = -1 ∧
    extract_json "[1,2,3]" = .ok (.arrV [.intV 1, .intV 2, .intV 3]) ∧
    ∀ t : String,
      (Except.ok (Json.arrV [.intV 1, .intV 2, .intV 3]) : Except String Json) ≠ .error t :=
  ⟨rfl, rfl, rfl, fun _ h => Except.noConfusion h⟩

/-! ## Claim C6: no fenced-block stripping -/

/-- A first occurrence inside the left part of an append is the first occurrence of the
whole. -/
theorem pyFindAux_append_left_some (c : Char) :
    ∀ (xs ys : List Char) (i : Nat), pyFindAux xs c = some i →
      pyFindAux (xs ++ ys) c = some i := by
  intro xs
  induction xs with
  | nil => intro ys i h; simp [pyFindAux] at h
  | cons x xs ih =>
    intro ys i h
    rw [List.cons_append]
    unfold pyFindAux at h ⊢
    by_cases hx : x = c
    · rwa [if_pos hx] at h ⊢
    · rw [if_neg hx] at h ⊢
      cases hf : pyFindAux xs c with
      | none => rw [hf] at h; simp at h
      | some i0 =>
        rw [hf] at h
        rw [ih ys i0 hf]
        exact h

/-- Prepending `c`-free text shifts the first occurrence by its length. -/
theorem pyFindAux_append_right (c : Char) :
    ∀ (xs ys : List Char) (i : Nat), c ∉ xs → pyFindAux ys c = some i →
      pyFindAux (xs ++ ys) c = some (xs.length + i) := by
  intro xs
  induction xs with
  | nil => intro ys i _ h; simpa using h
  | cons x xs ih =>
    intro ys i hmem h
    have hx : ¬ x = c := fun he => hmem (by simp [he])
    have hxs : c ∉ xs := fun hm => hmem (List.mem_cons_of_mem x hm)
    rw [List.cons_append]
    unfold pyFindAux
    rw [if_neg hx, ih ys i hxs h]
    simp
    omega

/-- Appending `c`-free text does not change the last occurrence. -/
theorem pyRFindAux_append_right_free (c : Char) :
    ∀ (xs ys : List Char), c ∉ ys → pyRFindAux (xs ++ ys) c = pyRFindAux xs c := by
  intro xs
  induction xs with
  | nil =>
    intro ys hmem
    simp only [List.nil_append]
    rw [pyRFindAux_eq_none_of c ys (fun k hk => hmem (List.getElem?_mem hk))]
    rfl
  | cons x xs ih =>
    intro ys hmem
    rw [List.cons_append]
    unfold pyRFindAux
    rw [ih ys hmem]

/-- A last occurrence in the right part of an append shifts by the left length. -/
theorem pyRFindAux_append_left (c : Char) :
    ∀ (xs ys : List Char) (j : Nat), pyRFindAux ys c = some j →
      pyRFindAux (xs ++ ys) c = some (xs.length + j) := by
  intro xs
  induction xs with
  | nil => intro ys j h; simpa using h
  | cons x xs ih =>
    intro ys j h
    rw [List.cons_append]
    unfold pyRFindAux
    rw [ih ys j h]
    simp
    omega

/-- Claim C6 (amended): `extract_json` performs no fenced-block stripping — the braces are
located in the unmodified text. Consequently brace-free surrounding text (fences included)
is transparent: wrapping a text whose brace span is well formed in any brace-free prefix
and suffix yields an object exactly when the bare text does, and the same object; and the
fenced example still succeeds, via the global brace span rather than any stripping step. -/
theorem claim6_no_fence_strip :
    (∀ (p s q : String) (i j : Nat),
      lbrace ∉ p.data → rbrace ∉ q.data →
      pyFindAux s.data lbrace = some i → pyRFindAux s.data rbrace = some j → i < j →
      ∀ v : Json, (extract_json (p ++ s ++ q) = .ok v ↔ extract_json s = .ok v)) ∧
    extract_json "```json\n\x7b\"a\":1\x7d\n```" = .ok (.objV [("a", .intV 1)]) := by
  refine ⟨?_, rfl⟩
  intro p s q i j hp hq hfi hrj hij v
  have hj_lt : j < s.data.length := pyRFindAux_lt_length rbrace s.data j hrj
  have hfull : (p ++ s ++ q).data = p.data ++ (s.data ++ q.data) := by
    simp [List.append_assoc]
  have hfind : pyFindAux (p ++ s ++ q).data lbrace = some (p.data.length + i) := by
    rw [hfull]
    exact pyFindAux_append_right lbrace p.data (s.data ++ q.data) i hp
      (pyFindAux_append_left_some lbrace s.data q.data i hfi)
  have hrfind : pyRFindAux (p ++ s ++ q).data rbrace = some (p.data.length + j) := by
    rw [hfull, ← List.append_assoc]
    rw [pyRFindAux_append_right_free rbrace (p.data ++ s.data) q.data hq]
    exact pyRFindAux_append_left rbrace p.data s.data j hrj
  have hslice : (((p ++ s ++ q).data.drop (p.data.length + i)).take
      ((p.data.length + j) + 1 - (p.data.length + i))) = (s.data.drop i).take (j + 1 - i) := by
    rw [hfull, List.drop_append]
    have harith : (p.data.length + j) + 1 - (p.data.length + i) = j + 1 - i := by omega
    rw [harith]
    have hd : (s.data ++ q.data).drop i = s.data.drop i ++ q.data := by
      rw [List.drop_append_eq_append_drop]
      have : i - s.data.length = 0 := by omega
      rw [this]
      simp
    rw [hd, List.take_append_of_le_length (by
      rw [List.length_drop]
      omega)]
  have hF1 : pyFind (p ++ s ++ q) lbrace = ((p.data.length + i : Nat) : Int) := by
    unfold pyFind
    rw [hfind]
    rfl
  have hR1 : pyRFind (p ++ s ++ q) rbrace = ((p.data.length + j : Nat) : Int) := by
    unfold pyRFind
    rw [hrfind]
    rfl
  have hF2 : pyFind s lbrace = (i : Int) := by
    unfold pyFind
    rw [hfi]
    rfl
  have hR2 : pyRFind s rbrace = (j : Int) := by
    unfold pyRFind
    rw [hrj]
    rfl
  have hsel : selected_text (p ++ s ++ q) = selected_text s := by
    unfold selected_text
    rw [hF1, hR1, hF2, hR2]
    rw [if_pos ⟨by omega, by omega, by exact_mod_cast Nat.add_lt_add_left hij p.data.length⟩,
      if_pos ⟨by omega, by omega, by exact_mod_cast hij⟩]
    simp only [Int.toNat_natCast]
    rw [hslice]
  unfold extract_json jsonLoadsOr
  rw [hsel]
  cases json_loads (selected_text s) with
  | ok d => exact Iff.rfl
  | error e =>
    constructor
    · intro h; exact absurd h (by simp)
    · intro h; exact absurd h (by simp)

/-- Witness for C6 (amended): the fence lines of the spec's fenced example are brace-free
prefix/suffix around the object text, so extraction agrees with extraction from the bare
object text. -/
theorem claim6_no_fence_strip_witness :
    (lbrace ∉ ("```json\n" : String).data ∧ rbrace ∉ ("\n```" : String).data ∧
      pyFindAux ("\x7b\"a\":1\x7d" : String).data lbrace = some 0 ∧
      pyRFindAux ("\x7b\"a\":1\x7d" : String).data rbrace = some 6 ∧ (0 : Nat) < 6) ∧
    (extract_json ("```json\n" ++ "\x7b\"a\":1\x7d" ++ "\n```") =
        .ok (.objV [("a", .intV 1)]) ↔
      extract_json "\x7b\"a\":1\x7d" = .ok (.objV [("a", .intV 1)])) :=
  ⟨⟨by decide, by decide, by decide, by decide, by decide⟩,
   claim6_no_fence_strip.1 "```json\n" "\x7b\"a\":1\x7d" "\n```" 0 6 (by decide) (by decide)
     (by decide) (by decide) (by decide) (.objV [("a", .intV 1)])⟩

/-- Counterexample to C6 as stated: on a text whose first fenced block holds no JSON and
whose braces lie outside it, the source's `extract_json` parses the brace span of the
whole text, while the spec's fence-stripping algorithm (`extract_json_spec`) strips to the
block content and fails. No fence handling exists in the code. -/
theorem claim6_counterexample :
    extract_json "```txt\nhello\n``` \x7b\"b\": 3\x7d" = .ok (.objV [("b", .intV 3)]) ∧
    extract_json_spec "```txt\nhello\n``` \x7b\"b\": 3\x7d" =
      .error "```txt\nhello\n``` \x7b\"b\": 3\x7d" ∧
    (Except.ok (Json.objV [("b", Json.intV 3)]) : Except String Json) ≠
      .error "```txt\nhello\n``` \x7b\"b\": 3\x7d" :=
  ⟨rfl, rfl, fun h => Except.noConfusion h⟩

/-! ## Claim C10: form validation -/

/-- The head surviving a `dropWhile` fails the predicate. -/
theorem dropWhile_head_false {α : Type} (p : α → Bool) :
    ∀ (l : List α) (a : α) (r : List α), l.dropWhile p = a :: r → p a = false := by
  intro l
  induction l with
  | nil => intro a r h; simp at h
  | cons x xs ih =>
    intro a r h
    rw [List.dropWhile_cons] at h
    by_cases hx : p x
    · rw [if_pos hx] at h
      exact ih a r h
    · rw [if_neg hx] at h
      cases h
      exact Bool.not_eq_true _ ▸ (by simpa using hx)

/-- `dropWhile` is idempotent. -/
theorem dropWhile_idem {α : Type} (p : α → Bool) :
    ∀ l : List α, (l.dropWhile p).dropWhile p = l.dropWhile p := by
  intro l
  induction l with
  | nil => rfl
  | cons x xs ih =>
    rw [List.dropWhile_cons]
    by_cases hx : p x
    · rw [if_pos hx]
      exact ih
    · rw [if_neg hx, List.dropWhile_cons, if_neg hx]

/-- Stripping from both ends is idempotent at the list level. -/
theorem strip_list_idem {α : Type} (p : α → Bool) (l : List α) :
    (((((l.dropWhile p).reverse.dropWhile p).reverse.dropWhile p).reverse.dropWhile p).reverse)
      = ((l.dropWhile p).reverse.dropWhile p).reverse := by
  set m := l.dropWhile p with hm
  set w := m.reverse.dropWhile p with hw
  have h1 : w.reverse.dropWhile p = w.reverse := by
    cases hwr : w.reverse with
    | nil => rfl
    | cons a r =>
      have hsuff : w <:+ m.reverse := hw ▸ List.dropWhile_suffix p
      obtain ⟨pre, hpre⟩ := hsuff
      have hm2 : m = w.reverse ++ pre.reverse := by
        have h' := congrArg List.reverse hpre
        rw [List.reverse_append, List.reverse_reverse] at h'
        exact h'.symm
      have hpa : p a = false := by
        apply dropWhile_head_false p l a (r ++ pre.reverse)
        rw [← hm, hm2, hwr]
        rfl
      rw [List.dropWhile_cons, hpa]
      simp
  have h2 : w.dropWhile p = w := by
    rw [hw]
    exact dropWhile_idem p m.reverse
  rw [h1, List.reverse_reverse, h2]

/-- `pyStrip` is idempotent: a stripped string strips to itself. -/
theorem pyStrip_idempotent (s : String) : pyStrip (pyStrip s) = pyStrip s := by
  unfold pyStrip
  exact congrArg String.mk (strip_list_idem isPySpace s.data)

/-- Claim C10: the register form invokes `create_user` only with the stripped username
(non-empty, itself invariant under stripping) and a password of length at least 6 equal to
its confirmation, on a username not yet present; the login form verifies with the stripped
username; hence rows created through the forms always carry a stripped non-empty username
and a digest of a password of length at least 6. -/
theorem claim10_form_validation :
    (∀ (dbFault : Option String) (now : String) (db : DB) (nu0 p1 p2 u p : String)
      (r : Except String (Bool × DB)),
      tab_register dbFault now db nu0 p1 p2 = .createCalled u p r →
      u = pyStrip nu0 ∧ pyStrip u = u ∧ u ≠ "" ∧ p = p1 ∧ p ≠ "" ∧ 6 ≤ p.length ∧
        p = p2 ∧ user_exists db u = false ∧ r = create_user dbFault now db u p) ∧
    (∀ (dbFault : Option String) (db : DB) (u0 p : String),
      tab_login dbFault db u0 p = check_credentials dbFault db (pyStrip u0) p) ∧
    (∀ (dbFault : Option String) (now : String) (db : DB) (nu0 p1 p2 u p : String)
      (b : Bool) (db2 : DB),
      (∀ row ∈ db.rows, wellFormedRow row) →
      tab_register dbFault now db nu0 p1 p2 = .createCalled u p (.ok (b, db2)) →
      ∀ row ∈ db2.rows, wellFormedRow row) := by
  have hmain : ∀ (dbFault : Option String) (now : String) (db : DB) (nu0 p1 p2 u p : String)
      (r : Except String (Bool × DB)),
      tab_register dbFault now db nu0 p1 p2 = .createCalled u p r →
      u = pyStrip nu0 ∧ pyStrip u = u ∧ u ≠ "" ∧ p = p1 ∧ p ≠ "" ∧ 6 ≤ p.length ∧
        p = p2 ∧ user_exists db u = false ∧ r = create_user dbFault now db u p := by
    intro dbFault now db nu0 p1 p2 u p r h
    unfold tab_register at h
    by_cases h1 : pyStrip nu0 = "" ∨ p1 = ""
    · rw [if_pos h1] at h; exact absurd h (by simp)
    · rw [if_neg h1] at h
      by_cases h2 : p1.length < 6
      · rw [if_pos h2] at h; exact absurd h (by simp)
      · rw [if_neg h2] at h
        by_cases h3 : p1 ≠ p2
        · rw [if_pos h3] at h; exact absurd h (by simp)
        · rw [if_neg h3] at h
          cases h4 : user_exists db (pyStrip nu0) with
          | true => rw [h4] at h; simp at h
          | false =>
            rw [h4] at h
            simp only [Bool.false_eq_true, if_false, RegOutcome.createCalled.injEq] at h
            obtain ⟨hu, hp, hr⟩ := h
            subst hu
            subst hp
            push_neg at h1 h3
            exact ⟨rfl, pyStrip_idempotent nu0, h1.1, rfl, h1.2, Nat.le_of_not_lt h2,
              h3, h4, hr.symm⟩
  refine ⟨hmain, fun _ _ _ _ => rfl, ?_⟩
  intro dbFault now db nu0 p1 p2 u p b db2 hwf h
  obtain ⟨hu, hsu, hne, hp1, hpne, hlen, hp2, hex, hr⟩ :=
    hmain dbFault now db nu0 p1 p2 u p (.ok (b, db2)) h
  match dbFault, hr with
  | none, hr =>
    unfold create_user at hr
    cases hany : db.rows.any (fun row => row.username == u) with
    | true =>
      rw [hany] at hr
      simp only [if_true, Except.ok.injEq, Prod.mk.injEq] at hr
      rw [hr.2]
      exact hwf
    | false =>
      rw [hany] at hr
      simp only [Bool.false_eq_true, if_false, Except.ok.injEq, Prod.mk.injEq] at hr
      rw [hr.2]
      intro row hrow
      rcases List.mem_append.mp hrow with hrow | hrow
      · exact hwf row hrow
      · rcases List.mem_singleton.mp hrow with rfl
        exact ⟨hsu, hne, p, hlen, rfl⟩

/-- Witness for C10: a concrete registration (`"  alice "` with password `secret1` twice)
reaches `create_user` with the stripped username and the validated password, and
preserves well-formedness of the store. -/
theorem claim10_form_validation_witness :
    (tab_register .none "t0" emptyDB "  alice " "secret1" "secret1" =
      .createCalled "alice" "secret1" (create_user .none "t0" emptyDB "alice" "secret1")) ∧
    (("alice" : String) = pyStrip "  alice " ∧ pyStrip "alice" = "alice" ∧
      ("alice" : String) ≠ "" ∧ ("secret1" : String) = "secret1" ∧
      ("secret1" : String) ≠ "" ∧ 6 ≤ ("secret1" : String).length ∧
      ("secret1" : String) = "secret1" ∧ user_exists emptyDB "alice" = false ∧
      create_user .none "t0" emptyDB "alice" "secret1" =
        create_user .none "t0" emptyDB "alice" "secret1") ∧
    (tab_login .none emptyDB "  alice " "secret1" =
      check_credentials .none emptyDB (pyStrip "  alice ") "secret1") ∧
    (∀ row ∈ (⟨[⟨0, "alice", hash_password "secret1", "t0"⟩], 1⟩ : DB).rows,
      wellFormedRow row) :=
  ⟨rfl,
   claim10_form_validation.1 .none "t0" emptyDB "  alice " "secret1" "secret1"
     "alice" "secret1" (create_user .none "t0" emptyDB "alice" "secret1") rfl,
   claim10_form_validation.2.1 .none emptyDB "  alice " "secret1",
   claim10_form_validation.2.2 .none "t0" emptyDB "  alice " "secret1" "secret1"
     "alice" "secret1" true ⟨[⟨0, "alice", hash_password "secret1", "t0"⟩], 1⟩
     (fun row hrow => absurd hrow (by simp [emptyDB])) rfl⟩
